import Mathlib

/-!
Verification development for the `vulcan-runtime` repository.

The definitions below are a shallow embedding of the Go sources:

* `runtime` package (check lifecycle states and their finite state machine),
* `internal/api` package (the Push HTTP bridge used by checks to report
  status), and
* `runtime/backend` package (the `Backend` interface and its `RunParams`).

Go strings become `String`, byte slices holding text become `String`,
slices become `List`, error returns become `Except`/`Option`, and the
standard-library helpers the code calls (`slices.Sort`,
`slices.BinarySearch`, `path.Split`) are modelled by their documented
behaviour on the values this repository passes them.
-/

namespace VulcanRuntime

/-! ## The `runtime` package: check lifecycle states -/

/-- Check lifecycle state, embedding Go `type State string`. -/
abbrev State := String

def StateCreated : State := "CREATED"
def StateInit : State := "INIT"
def StateRunning : State := "RUNNING"
def StateTimeout : State := "TIMEOUT"
def StateAborted : State := "ABORTED"
def StateKilled : State := "KILLED"
def StateFailed : State := "FAILED"
def StateFinished : State := "FINISHED"
def StateMalformed : State := "MALFORMED"
def StateInconclusive : State := "INCONCLUSIVE"

/-- Byte-wise lexicographic comparison of two character lists, the order Go
uses to compare strings (the states are ASCII, so comparing the characters
of the Lean strings agrees with comparing the bytes of the Go strings). -/
def strLt : List Char → List Char → Bool
  | [], [] => false
  | [], _ :: _ => true
  | _ :: _, [] => false
  | c :: cs, d :: ds =>
      if c.toNat < d.toNat then true
      else if d.toNat < c.toNat then false
      else strLt cs ds

/-- Insert a state into a list sorted by `strLt`. -/
def insertSorted (x : State) : List State → List State
  | [] => [x]
  | y :: ys => if strLt x.data y.data then x :: y :: ys else y :: insertSorted x ys

/-- Models Go `slices.Sort` on a slice of states: sorts ascending in the
string order. -/
def sortStates (l : List State) : List State := l.foldr insertSorted []

/-- Models the `found` result of Go `slices.BinarySearch(l, t)`. On a slice
sorted ascending — the only way this repository calls it, after
`States.init` has sorted every stage — `found` is true exactly when the
target is present in the slice. -/
def binarySearchFound (l : List State) (t : State) : Bool := decide (t ∈ l)

/-- Embeds Go `type States [][]State`: the stages of the check lifecycle
state machine, in order. -/
abbrev States := List (List State)

/-- Embeds the Go method `States.init`, which sorts each stage in place
(via `slices.Sort`) so that the later binary searches are valid. -/
def States.initSorted (c : States) : States := c.map (fun s => sortStates s)

/-- The literal of the package-level Go variable `CheckStates`, before the
package `init` function runs. -/
def CheckStatesRaw : States :=
  [[StateCreated],
   [StateInit],
   [StateRunning],
   [StateMalformed,
    StateAborted,
    StateKilled,
    StateFailed,
    StateFinished,
    StateTimeout,
    StateInconclusive]]

/-- The value of the Go variable `CheckStates` after the package `init`
function has run `CheckStates.init()`: every stage sorted. All exported
functions of the package operate on this value. -/
def CheckStates : States := CheckStatesRaw.initSorted

/-- Embeds Go `NewState`: walks the stages of `CheckStates` and returns the
state when some stage contains it, otherwise the `invalid state` error. -/
def NewState (s : String) : Except String State :=
  if CheckStates.any (fun states => binarySearchFound states s) then
    Except.ok s
  else
    Except.error ("invalid state " ++ s)

/-- Embeds Go `State.UnmarshalJSON`: the raw JSON bytes `data` are passed,
as text, directly to `NewState` (note: the raw bytes of a JSON string
include the surrounding quotes). -/
def State.unmarshalJSON (data : String) : Except String State := NewState data

/-- Helper for `States.LessOrEqual`: walks the stages from the first,
accumulating each stage and stopping after the stage that contains `s`. -/
def lessOrEqualAux (s : State) : States → List State
  | [] => []
  | stage :: rest =>
      stage ++ (if binarySearchFound stage s then [] else lessOrEqualAux s rest)

/-- Embeds Go `States.LessOrEqual`: the states preceding (or in the same
stage as) `s`; when `s` is in no stage, all states, in stage order. -/
def States.LessOrEqual (c : States) (s : State) : List State :=
  lessOrEqualAux s c

/-- Helper for `States.HigherThan`: walks the stages from the last,
stopping (before accumulating) at the stage that contains `s`. -/
def higherThanAux (s : State) : States → List State
  | [] => []
  | stage :: rest =>
      if binarySearchFound stage s then [] else stage ++ higherThanAux s rest

/-- Embeds Go `States.HigherThan`: the states a check can take after `s`;
when `s` is in no stage, all states, from the last stage down to the
first. -/
def States.HigherThan (c : States) (s : State) : List State :=
  higherThanAux s c.reverse

/-- Embeds Go `States.IsHigher`: whether `s` occurs among the states after
`base`. -/
def States.IsHigher (c : States) (s base : State) : Bool :=
  (c.HigherThan base).contains s

/-- Embeds Go `States.IsLessOrEqual`: whether `s` occurs among the states
at or before `base`. -/
def States.IsLessOrEqual (c : States) (s base : State) : Bool :=
  (c.LessOrEqual base).contains s

/-- Embeds Go `States.Terminal`: the last stage `c[len(c)-1]`. -/
def States.Terminal (c : States) : List State :=
  c.getD (c.length - 1) []

/-- Embeds Go `States.NonTerminal`: the hard-coded non-terminal states. -/
def States.NonTerminal (_c : States) : List State :=
  [StateCreated, StateInit, StateRunning]

/-- Embeds Go `States.IsTerminal`: binary search of `s` in the terminal
stage. -/
def States.IsTerminal (c : States) (s : State) : Bool :=
  binarySearchFound c.Terminal s

/-- The ten valid lifecycle states, as enumerated by the spec. -/
def allStates : List State :=
  [StateCreated, StateInit, StateRunning, StateTimeout, StateAborted,
   StateKilled, StateFailed, StateFinished, StateMalformed, StateInconclusive]

/-! ## The `internal/api` package: the Push bridge HTTP handler -/

/-- Embeds the payload struct `api.State` (the JSON body a check sends when
pushing status). The `Progress *float32` field of the Go struct is not
modelled: no claim touches it and it plays no role in the handler. -/
structure StatePayload where
  id : String
  status : Option State
  agentID : Option String
  report : Option String
  raw : Option String
deriving DecidableEq, Repr

/-- A value stored in the `Push.checks` sync.Map. The handler type-asserts
the stored value to `chan<- State`; `chanEntry n` stands for a stored
channel (identified by `n`), `otherEntry` for a stored value of any other
dynamic type. -/
inductive RegEntry where
  | chanEntry (n : Nat)
  | otherEntry
deriving DecidableEq, Repr

/-- The `Push.checks` registry, modelled as an association list from check
id to stored value. -/
abbrev Registry := List (String × RegEntry)

/-- Models `sync.Map.Load` on the registry. -/
def registryLoad (checks : Registry) (id : String) : Option RegEntry :=
  checks.lookup id

/-- The part of an HTTP request the handler `Push.handleHTTP` inspects:
the method, the URL path, and the outcome of JSON-decoding the body into
an `api.State` (`Except.error` when `dec.Decode` fails). -/
structure Request where
  method : String
  urlPath : String
  decodeBody : Except String StatePayload
deriving Repr

/-- Splits a character list after its last `/`: returns `some (dir, file)`
with the input equal to `dir ++ file` and the `/` ending `dir`, or `none`
when the list has no `/`. -/
def splitLastSlash : List Char → Option (List Char × List Char)
  | [] => none
  | c :: rest =>
      match splitLastSlash rest with
      | some (d, f) => some (c :: d, f)
      | none => if c = '/' then some ([c], rest) else none

/-- Models Go `path.Split(p)`: splits `p` after the final slash into a
directory part (keeping the slash) and a file part; with no slash the
directory part is empty. -/
def pathSplit (p : String) : String × String :=
  match splitLastSlash p.data with
  | none => ("", p)
  | some (d, f) => (⟨d⟩, ⟨f⟩)

/-- The observable outcome of one call to the handler: the HTTP status
written, the event (channel, payload) sent on a check's stream if any, and
the registry as left behind by the handler. -/
structure HandlerResult where
  status : Nat
  sent : Option (Nat × StatePayload)
  registryAfter : Registry
deriving DecidableEq, Repr

/-- The tail of `Push.handleHTTP` after method and path validation (the
spec calls this step `deliver`; the Go code inlines it): look up the id,
decode the body, type-assert the stored channel, send the payload. -/
def deliver (checks : Registry) (id : String)
    (decodeBody : Except String StatePayload) : HandlerResult :=
  match registryLoad checks id with
  | none => ⟨400, none, checks⟩
  | some entry =>
      match decodeBody with
      | Except.error _ => ⟨400, none, checks⟩
      | Except.ok s =>
          match entry with
          | RegEntry.chanEntry n => ⟨200, some (n, s), checks⟩
          | RegEntry.otherEntry => ⟨500, none, checks⟩

/-- Embeds Go `Push.handleHTTP`: reject non-PATCH methods, split the URL
path with `path.Split` and reject unless the directory part is
`/checks/`, then hand the file part to `deliver` as the check id. -/
def handleHTTP (checks : Registry) (r : Request) : HandlerResult :=
  if r.method ≠ "PATCH" then ⟨400, none, checks⟩
  else if (pathSplit r.urlPath).1 ≠ "/checks/" then ⟨400, none, checks⟩
  else deliver checks (pathSplit r.urlPath).2 r.decodeBody

/-- The spec-side wording of the accepted path shape: a path of the form
`/checks/{id}` where the id is the final path segment (it contains no
slash). Stated from the spec to compare with the code's `path.Split`
check. -/
def isChecksIdPath (p : String) : Prop :=
  ∃ id : String, '/' ∉ id.data ∧ p = "/checks/" ++ id

/-! ## The `internal/api` package: `Push.Start` -/

/-- An error value of the Go `net/http` server: `serverClosed` stands for
`http.ErrServerClosed`, `err msg` for any other non-nil error. -/
inductive SrvErr where
  | serverClosed
  | err (msg : String)
deriving DecidableEq, Repr

/-- The value the listener goroutine of `Push.Start` sends on the
`stopped` channel: the error returned by `srv.ListenAndServe()`,
unfiltered. -/
def stoppedChanValue (listenErr : SrvErr) : SrvErr := listenErr

/-- The value the monitor goroutine of `Push.Start` sends on the `done`
channel when the governing context is cancelled and the listener then
stops: the `srv.Shutdown` result, except that a non-`ErrServerClosed`
listener error replaces it, and `ErrServerClosed` itself is filtered
out. -/
def doneChanValue (shutdownErr : Option SrvErr) (listenErr : SrvErr) :
    Option SrvErr :=
  match listenErr with
  | SrvErr.serverClosed => shutdownErr
  | SrvErr.err m => some (SrvErr.err m)

/-- The channels created inside `Push.Start`. -/
inductive StartChan where
  | stoppedChan
  | doneChan
deriving DecidableEq, Repr

/-- Which channel the `return` statement of `Push.Start` returns: the Go
code ends with `return stopped`. -/
def startReturns : StartChan := StartChan.stoppedChan

/-- The value delivered on the channel `Push.Start` returns, in the
scenario where the governing context is cancelled and the listener then
stops with `listenErr`: `stopped` carries the raw listener error, `done`
carries the filtered shutdown result. -/
def startReturnedValue (shutdownErr : Option SrvErr) (listenErr : SrvErr) :
    Option SrvErr :=
  match startReturns with
  | StartChan.stoppedChan => some (stoppedChanValue listenErr)
  | StartChan.doneChan => doneChanValue shutdownErr listenErr

/-! ## The `runtime/backend` package -/

/-- Models Go `net.Addr` (an interface with `Network()` and `String()`). -/
structure NetAddr where
  network : String
  addr : String
deriving DecidableEq, Repr

/-- Embeds the `backend.RunParams` struct from the file that declares the
`Backend` interface: the parameters `Backend.Run` receives, including the
`RuntimeAddr` field carrying the address of the runtime's push API. -/
structure RunParams where
  CheckID : String
  CheckTypeName : String
  ChecktypeVersion : String
  Image : String
  Target : String
  AssetType : String
  Options : String
  RequiredVars : List String
  Metadata : List (String × String)
  RuntimeAddr : NetAddr
deriving DecidableEq, Repr

/-- Modelled from the spec: the construction of the `RunParams` value the
runtime passes to `Backend.Run` is not among the sources (only the struct
declaration and the `Backend` interface are); per the spec, the runtime
fills `RuntimeAddr` with the Push bridge's reachable network address so
the launched container can reach the push endpoint. -/
def runParamsFor (checkID checkTypeName version image target assetType
    options : String) (requiredVars : List String)
    (metadata : List (String × String)) (pushAddr : NetAddr) : RunParams :=
  { CheckID := checkID
    CheckTypeName := checkTypeName
    ChecktypeVersion := version
    Image := image
    Target := target
    AssetType := assetType
    Options := options
    RequiredVars := requiredVars
    Metadata := metadata
    RuntimeAddr := pushAddr }

/-- The ten states in stage order (stage 0 first), each stage in its
sorted order: the concatenation of the stages of `CheckStates`. -/
def allStatesAsc : List State :=
  [StateCreated, StateInit, StateRunning,
   StateAborted, StateFailed, StateFinished, StateInconclusive,
   StateKilled, StateMalformed, StateTimeout]

/-- The ten states concatenated from the terminal stage down to stage 0. -/
def allStatesDesc : List State :=
  [StateAborted, StateFailed, StateFinished, StateInconclusive,
   StateKilled, StateMalformed, StateTimeout,
   StateRunning, StateInit, StateCreated]

/-- The value of `CheckStates` fully evaluated: the package `init` has
sorted every stage ascending. -/
theorem checkStates_eval :
    CheckStates =
      [[StateCreated], [StateInit], [StateRunning],
       [StateAborted, StateFailed, StateFinished, StateInconclusive,
        StateKilled, StateMalformed, StateTimeout]] := by decide

/-- C6: `NewState text` succeeds, returning exactly `text` as the state, if
and only if `text` is one of the ten known state tokens; on every other
input it returns the `invalid state` error. -/
theorem newState_valid_tokens (s : String) :
    NewState s =
      (if s ∈ allStates then Except.ok s
       else Except.error ("invalid state " ++ s)) := by
  by_cases h : s ∈ allStates
  · rw [if_pos h]
    simp only [allStates, StateCreated, StateInit, StateRunning, StateTimeout,
      StateAborted, StateKilled, StateFailed, StateFinished, StateMalformed,
      StateInconclusive, List.mem_cons, List.not_mem_nil, or_false] at h
    rcases h with rfl | rfl | rfl | rfl | rfl | rfl | rfl | rfl | rfl | rfl <;> rfl
  · rw [if_neg h]
    simp only [allStates, StateCreated, StateInit, StateRunning, StateTimeout,
      StateAborted, StateKilled, StateFailed, StateFinished, StateMalformed,
      StateInconclusive, List.mem_cons, List.not_mem_nil, or_false,
      not_or] at h
    obtain ⟨h1, h2, h3, h4, h5, h6, h7, h8, h9, h10⟩ := h
    rw [NewState, checkStates_eval]
    simp [binarySearchFound, StateCreated, StateInit, StateRunning,
      StateTimeout, StateAborted, StateKilled, StateFailed, StateFinished,
      StateMalformed, StateInconclusive, h1, h2, h3, h4, h5, h6, h7, h8, h9,
      h10]

/-- C1: contrary to the spec, unmarshalling the JSON string encoding of a
valid state (the quoted token) fails: `State.UnmarshalJSON` hands the raw
JSON bytes — quotes included — to `NewState`, which only accepts the bare
token. The bare (unquoted) token, which is not the JSON encoding, is what
succeeds. -/
theorem unmarshalJSON_rejects_quoted_token :
    State.unmarshalJSON "\"RUNNING\"" =
        Except.error "invalid state \"RUNNING\"" ∧
      NewState "RUNNING" = Except.ok "RUNNING" :=
  ⟨rfl, rfl⟩

/-- C8: the seven terminal states are exactly the `IsTerminal` ones,
CREATED/INIT/RUNNING are not terminal, `Terminal()` and `NonTerminal()`
partition the ten valid states, and stage 3 (the last stage) is the unique
stage containing terminal states. -/
theorem terminal_partition :
    (CheckStates.IsTerminal StateTimeout = true ∧
      CheckStates.IsTerminal StateAborted = true ∧
      CheckStates.IsTerminal StateKilled = true ∧
      CheckStates.IsTerminal StateFailed = true ∧
      CheckStates.IsTerminal StateFinished = true ∧
      CheckStates.IsTerminal StateMalformed = true ∧
      CheckStates.IsTerminal StateInconclusive = true) ∧
    (CheckStates.IsTerminal StateCreated = false ∧
      CheckStates.IsTerminal StateInit = false ∧
      CheckStates.IsTerminal StateRunning = false) ∧
    (∀ a ∈ CheckStates.Terminal, a ∉ CheckStates.NonTerminal) ∧
    (CheckStates.Terminal ++ CheckStates.NonTerminal).Perm allStates ∧
    CheckStates.Terminal = CheckStates.getD 3 [] ∧
    (∀ i ∈ [0, 1, 2], ∀ s ∈ CheckStates.getD i [],
      CheckStates.IsTerminal s = false) := by
  refine ⟨by decide, by decide, by decide, by decide, by decide, by decide⟩

/-- Witness for C8 at stage 0 and the state CREATED. -/
theorem terminal_partition_witness :
    CheckStates.IsTerminal StateCreated = false :=
  terminal_partition.2.2.2.2.2 0 (by decide) StateCreated (by decide)

/-- C10: a terminal state has no states after it: `HigherThan` of a
terminal state is empty, so no state at all is `IsHigher` than it and the
monotonic-update rule can never replace a terminal state. -/
theorem terminal_no_higher (t : State)
    (h : CheckStates.IsTerminal t = true) :
    CheckStates.HigherThan t = [] ∧
      ∀ s : State, CheckStates.IsHigher s t = false := by
  have hb : binarySearchFound
      [StateAborted, StateFailed, StateFinished, StateInconclusive,
       StateKilled, StateMalformed, StateTimeout] t = true := h
  have h1 : CheckStates.HigherThan t = [] := by
    show higherThanAux t CheckStates.reverse = []
    have hrev : CheckStates.reverse =
        [[StateAborted, StateFailed, StateFinished, StateInconclusive,
          StateKilled, StateMalformed, StateTimeout],
         [StateRunning], [StateInit], [StateCreated]] := by decide
    rw [hrev, higherThanAux, hb]
    simp
  refine ⟨h1, fun s => ?_⟩
  show (CheckStates.HigherThan t).contains s = false
  rw [h1]
  rfl

/-- Witness for C10 at the terminal state TIMEOUT (and CREATED for the
universally quantified conclusion). -/
theorem terminal_no_higher_witness :
    CheckStates.HigherThan StateTimeout = [] ∧
      CheckStates.IsHigher StateCreated StateTimeout = false :=
  ⟨(terminal_no_higher StateTimeout (by decide)).1,
   (terminal_no_higher StateTimeout (by decide)).2 StateCreated⟩

/-- C7: for valid states in the same stage, `IsHigher` is false and
`IsLessOrEqual` is true; in particular each state is `IsLessOrEqual`
itself and never `IsHigher` than itself. -/
theorem same_stage_reflexive :
    ∀ s1 ∈ allStates, ∀ s2 ∈ allStates,
      (∃ stage ∈ CheckStates, s1 ∈ stage ∧ s2 ∈ stage) →
      CheckStates.IsHigher s1 s2 = false ∧
        CheckStates.IsLessOrEqual s1 s2 = true := by decide

/-- Witness for C7 at ABORTED and KILLED, both in the terminal stage. -/
theorem same_stage_reflexive_witness :
    CheckStates.IsHigher StateAborted StateKilled = false ∧
      CheckStates.IsLessOrEqual StateAborted StateKilled = true :=
  same_stage_reflexive StateAborted (by decide) StateKilled (by decide)
    ⟨[StateAborted, StateFailed, StateFinished, StateInconclusive,
      StateKilled, StateMalformed, StateTimeout],
     by decide, by decide, by decide⟩

/-- C3: for a token that is no valid state, `LessOrEqual` returns all ten
states in stage order and `HigherThan` returns all ten states from the
terminal stage down to stage 0; hence every valid state is both
`IsHigher` and `IsLessOrEqual` than the unknown token. -/
theorem unknown_state_fail_open (u : State) (h : u ∉ allStates) :
    CheckStates.LessOrEqual u = allStatesAsc ∧
      CheckStates.HigherThan u = allStatesDesc ∧
      ∀ s ∈ allStates, CheckStates.IsHigher s u = true ∧
        CheckStates.IsLessOrEqual s u = true := by
  simp only [allStates, StateCreated, StateInit, StateRunning, StateTimeout,
    StateAborted, StateKilled, StateFailed, StateFinished, StateMalformed,
    StateInconclusive, List.mem_cons, List.not_mem_nil, or_false,
    not_or] at h
  obtain ⟨h1, h2, h3, h4, h5, h6, h7, h8, h9, h10⟩ := h
  have hle : CheckStates.LessOrEqual u = allStatesAsc := by
    rw [States.LessOrEqual, checkStates_eval]
    simp [lessOrEqualAux, binarySearchFound, allStatesAsc, StateCreated,
      StateInit, StateRunning, StateTimeout, StateAborted, StateKilled,
      StateFailed, StateFinished, StateMalformed, StateInconclusive, h1, h2,
      h3, h4, h5, h6, h7, h8, h9, h10]
  have hht : CheckStates.HigherThan u = allStatesDesc := by
    rw [States.HigherThan, checkStates_eval]
    simp [higherThanAux, binarySearchFound, allStatesDesc, StateCreated,
      StateInit, StateRunning, StateTimeout, StateAborted, StateKilled,
      StateFailed, StateFinished, StateMalformed, StateInconclusive, h1, h2,
      h3, h4, h5, h6, h7, h8, h9, h10]
  refine ⟨hle, hht, fun s hs => ?_⟩
  have hih : CheckStates.IsHigher s u = allStatesDesc.contains s := by
    rw [States.IsHigher, hht]
  have hil : CheckStates.IsLessOrEqual s u = allStatesAsc.contains s := by
    rw [States.IsLessOrEqual, hle]
  rw [hih, hil]
  simp only [allStates, List.mem_cons, List.not_mem_nil, or_false] at hs
  rcases hs with rfl | rfl | rfl | rfl | rfl | rfl | rfl | rfl | rfl | rfl <;>
    exact ⟨rfl, rfl⟩

/-- A character list splits to `none` exactly when it has no slash. -/
theorem splitLastSlash_none_iff (cs : List Char) :
    splitLastSlash cs = none ↔ '/' ∉ cs := by
  induction cs with
  | nil => simp [splitLastSlash]
  | cons c rest ih =>
    rw [splitLastSlash]
    cases hrec : splitLastSlash rest with
    | some p =>
      have hmem : '/' ∈ rest := by
        by_contra hn
        rw [ih.mpr hn] at hrec
        cases hrec
      simp [List.mem_cons, hmem]
    | none =>
      have hrest : '/' ∉ rest := ih.mp hrec
      by_cases hc : c = '/'
      · simp [hc]
      · simp [hc, List.mem_cons, hrest, Ne.symm hc]

/-- A successful split decomposes the input: the whole list is the
directory part followed by the file part, and the file part has no
slash. -/
theorem splitLastSlash_decomp (cs : List Char) :
    ∀ d f, splitLastSlash cs = some (d, f) → cs = d ++ f ∧ '/' ∉ f := by
  induction cs with
  | nil => intro d f h; simp [splitLastSlash] at h
  | cons c rest ih =>
    intro d f h
    rw [splitLastSlash] at h
    cases hrec : splitLastSlash rest with
    | some p =>
      obtain ⟨d', f'⟩ := p
      rw [hrec] at h
      obtain ⟨rfl, rfl⟩ : c :: d' = d ∧ f' = f := by
        simpa using h
      obtain ⟨hcs, hf⟩ := ih d' f' hrec
      exact ⟨by rw [List.cons_append, ← hcs], hf⟩
    | none =>
      rw [hrec] at h
      by_cases hc : c = '/'
      · rw [if_pos hc] at h
        obtain ⟨rfl, rfl⟩ : [c] = d ∧ rest = f := by
          simpa using h
        exact ⟨rfl, (splitLastSlash_none_iff rest).mp hrec⟩
      · rw [if_neg hc] at h
        cases h

/-- Splitting a list that ends in a slash-free suffix after a slash finds
exactly that decomposition. -/
theorem splitLastSlash_build (l f : List Char) (hf : '/' ∉ f) :
    splitLastSlash (l ++ '/' :: f) = some (l ++ ['/'], f) := by
  induction l with
  | nil =>
    simp only [List.nil_append]
    rw [splitLastSlash, (splitLastSlash_none_iff f).mpr hf]
    simp
  | cons c l ih =>
    simp only [List.cons_append]
    rw [splitLastSlash, ih]

/-- `path.Split` of `/checks/` followed by a slash-free id returns the
`/checks/` directory and the id. -/
theorem pathSplit_build (id : String) (hid : '/' ∉ id.data) :
    pathSplit ("/checks/" ++ id) = ("/checks/", id) := by
  unfold pathSplit
  have hdata : ("/checks/" ++ id).data =
      ['/', 'c', 'h', 'e', 'c', 'k', 's'] ++ '/' :: id.data := rfl
  rw [hdata, splitLastSlash_build _ _ hid]
  rfl

/-- The directory part of `path.Split` is `/checks/` exactly when the path
has the shape `/checks/{id}` with a slash-free id. -/
theorem pathSplit_checks_iff (p : String) :
    (pathSplit p).1 = "/checks/" ↔ isChecksIdPath p := by
  constructor
  · intro h
    unfold pathSplit at h
    cases hs : splitLastSlash p.data with
    | none =>
      rw [hs] at h
      change ("" : String) = "/checks/" at h
      exact absurd h (by decide)
    | some q =>
      obtain ⟨d, f⟩ := q
      rw [hs] at h
      change (String.mk d) = "/checks/" at h
      have hd : d = "/checks/".data := congrArg String.data h
      obtain ⟨hcs, hf⟩ := splitLastSlash_decomp p.data d f hs
      refine ⟨⟨f⟩, hf, ?_⟩
      have : p.data = "/checks/".data ++ f := by rw [← hd, ← hcs]
      cases p with
      | mk datap => exact congrArg String.mk this
  · rintro ⟨id, hid, rfl⟩
    rw [pathSplit_build id hid]

/-- Witness for C3 at the unknown token FOO (and the valid state CREATED
for the universally quantified conclusion). -/
theorem unknown_state_fail_open_witness :
    CheckStates.LessOrEqual "FOO" = allStatesAsc ∧
      CheckStates.HigherThan "FOO" = allStatesDesc ∧
      CheckStates.IsHigher StateCreated "FOO" = true ∧
      CheckStates.IsLessOrEqual StateCreated "FOO" = true :=
  ⟨(unknown_state_fail_open "FOO" (by decide)).1,
   (unknown_state_fail_open "FOO" (by decide)).2.1,
   (unknown_state_fail_open "FOO" (by decide)).2.2 StateCreated (by decide)⟩

/-- C4: the handler rejects any request whose method is not PATCH or whose
URL path is not of the form `/checks/id` (id the final, slash-free
segment) with status 400 and an outcome independent of the registry
contents; a PATCH to a well-formed `/checks/id` path proceeds to the
delivery step, which begins with the lookup of exactly that id. -/
theorem handleHTTP_wire_contract (checks : Registry) (r : Request) :
    ((r.method ≠ "PATCH" ∨ ¬ isChecksIdPath r.urlPath) →
      handleHTTP checks r = ⟨400, none, checks⟩) ∧
    (∀ id : String, r.method = "PATCH" → '/' ∉ id.data →
      r.urlPath = "/checks/" ++ id →
      handleHTTP checks r = deliver checks id r.decodeBody) := by
  constructor
  · intro h
    unfold handleHTTP
    by_cases hm : r.method = "PATCH"
    · have hp : ¬ isChecksIdPath r.urlPath := by
        rcases h with h | h
        · exact absurd hm h
        · exact h
      have hd : (pathSplit r.urlPath).1 ≠ "/checks/" := fun hc =>
        hp ((pathSplit_checks_iff _).mp hc)
      rw [if_neg (not_not_intro hm), if_pos hd]
    · rw [if_pos hm]
  · intro id hm hid hurl
    unfold handleHTTP
    rw [hurl, pathSplit_build id hid, if_neg (not_not_intro hm)]
    rw [if_neg (not_not_intro rfl)]

/-- Witness for C4: a GET request is rejected with 400 against the empty
registry. -/
theorem handleHTTP_wire_contract_witness :
    handleHTTP [] ⟨"GET", "/checks/abc", Except.error "boom"⟩ =
      ⟨400, none, []⟩ :=
  (handleHTTP_wire_contract [] ⟨"GET", "/checks/abc", Except.error "boom"⟩).1
    (Or.inl (by decide))

/-- C5: whenever the handler answers 400, nothing is sent on any check's
event stream and the registry is left exactly as it was; in particular a
PATCH to `/checks/id` for an unregistered id, even with a body that
decodes, yields 400 with no state change. -/
theorem reject_no_side_effects (checks : Registry) (r : Request) :
    ((handleHTTP checks r).status = 400 →
      (handleHTTP checks r).sent = none ∧
        (handleHTTP checks r).registryAfter = checks) ∧
    (∀ id : String, r.method = "PATCH" → '/' ∉ id.data →
      r.urlPath = "/checks/" ++ id → registryLoad checks id = none →
      handleHTTP checks r = ⟨400, none, checks⟩) := by
  constructor
  · unfold handleHTTP deliver
    by_cases h1 : r.method ≠ "PATCH"
    · rw [if_pos h1]
      intro _
      exact ⟨rfl, rfl⟩
    · rw [if_neg h1]
      by_cases h2 : (pathSplit r.urlPath).1 ≠ "/checks/"
      · rw [if_pos h2]
        intro _
        exact ⟨rfl, rfl⟩
      · rw [if_neg h2]
        cases registryLoad checks ((pathSplit r.urlPath).2) with
        | none =>
          intro _
          exact ⟨rfl, rfl⟩
        | some entry =>
          cases r.decodeBody with
          | error e =>
            intro _
            exact ⟨rfl, rfl⟩
          | ok s =>
            cases entry with
            | chanEntry n =>
              intro hst
              simp at hst
            | otherEntry =>
              intro hst
              simp at hst
  · intro id hm hid hurl hload
    unfold handleHTTP
    rw [hurl, pathSplit_build id hid, if_neg (not_not_intro hm),
      if_neg (not_not_intro rfl)]
    unfold deliver
    rw [show registryLoad checks id = none from hload]

/-- Witness for C5, scenario E of the spec: PATCH to an unknown check id
with a decodable body leaves the registry untouched, sends nothing, and
answers 400. -/
theorem reject_no_side_effects_witness :
    handleHTTP [("other-id", RegEntry.chanEntry 0)]
        ⟨"PATCH", "/checks/unknown-id",
         Except.ok ⟨"unknown-id", none, none, none, none⟩⟩ =
      ⟨400, none, [("other-id", RegEntry.chanEntry 0)]⟩ :=
  (reject_no_side_effects [("other-id", RegEntry.chanEntry 0)]
      ⟨"PATCH", "/checks/unknown-id",
       Except.ok ⟨"unknown-id", none, none, none, none⟩⟩).2
    "unknown-id" rfl (by decide) (by decide) (by decide)

/-- C2: contrary to the spec, `Push.Start` returns the `stopped` channel,
which carries the raw `ListenAndServe` error; the filtered shutdown
result (which drops `http.ErrServerClosed`) is sent on the `done`
channel, which `Start` never returns. After a clean graceful shutdown the
returned channel therefore delivers `http.ErrServerClosed`. -/
theorem start_returns_unfiltered_channel :
    startReturns = StartChan.stoppedChan ∧
      startReturnedValue none SrvErr.serverClosed =
        some SrvErr.serverClosed ∧
      doneChanValue none SrvErr.serverClosed = none :=
  ⟨rfl, rfl, rfl⟩

/-- C9: the `RunParams` record passed to `Backend.Run` carries the
runtime's push-API address: the value the (spec-modelled) construction
puts into `RuntimeAddr` is exactly the Push bridge address it was given. -/
theorem runParams_includes_runtimeAddr (a b c d e f g : String)
    (rv : List String) (md : List (String × String)) (pushAddr : NetAddr) :
    (runParamsFor a b c d e f g rv md pushAddr).RuntimeAddr = pushAddr := rfl

end VulcanRuntime
